import Mathlib

/-!
Shallow embedding of the APF-UE4SS framework core (APFrameworkCore) and
verification of the frozen claims about it.

The embedding translates the C++ sources:
  ap_capabilities.cpp   (APCapabilities::Impl, SHA1)
  ap_mod_registry.cpp   (APModRegistry::Impl)
  ap_manager.cpp        (APManager::Impl)
  ap_message_router.cpp (APMessageRouter::Impl)
  ap_state_manager.cpp  (APStateManager::Impl)
  ap_ipc_server.cpp     (APIPCServer::Impl::process_received_data)
  ap_polling_thread.cpp (APPollingThread::Impl::setup_client_callbacks)
into executable Lean definitions.  C++ `std::map` is modelled as an
association list kept sorted by key, `std::unordered_map` as an
association list in insertion order (its iteration order is unspecified
by the C++ standard, so operations that depend on it are parameterised
by the delivery sequence), machine integers as `Int`/`Nat` with explicit
`% 2^32` where overflow matters, and JSON values by a small inductive
covering the shapes the code distinguishes.
-/

namespace APF

/-! ### Lexicographic byte order on strings (C++ `std::string::operator<`) -/

/-- Lexicographic strict order on character lists, mirroring C++
`std::string` comparison (UTF-8 byte order coincides with code-point
order). -/
def lex_lt : List Char → List Char → Bool
  | [], [] => false
  | [], _ :: _ => true
  | _ :: _, [] => false
  | a :: as, b :: bs => if a < b then true else if b < a then false else lex_lt as bs

def str_lt (a b : String) : Bool := lex_lt a.data b.data

def str_le (a b : String) : Bool := !(str_lt b a)

/-! ### Insertion sort with a boolean comparator (models `std::sort`) -/

def insert_le {α : Type} (le : α → α → Bool) (a : α) : List α → List α
  | [] => [a]
  | b :: bs => if le a b then a :: b :: bs else b :: insert_le le a bs

def sort_le {α : Type} (le : α → α → Bool) : List α → List α
  | [] => []
  | a :: as => insert_le le a (sort_le le as)

/-! ### UTF-8 bytes of a string (the byte stream `SHA1::update` consumes) -/

def charBytes (c : Char) : List Nat :=
  let n := c.toNat
  if n < 0x80 then [n]
  else if n < 0x800 then [0xC0 + n / 0x40, 0x80 + n % 0x40]
  else if n < 0x10000 then
    [0xE0 + n / 0x1000, 0x80 + (n / 0x40) % 0x40, 0x80 + n % 0x40]
  else
    [0xF0 + n / 0x40000, 0x80 + (n / 0x1000) % 0x40, 0x80 + (n / 0x40) % 0x40,
     0x80 + n % 0x40]

def strBytes (s : String) : List Nat :=
  s.data.foldr (fun c acc => charBytes c ++ acc) []

/-! ### Data model (ap_types.h) -/

inductive LifecycleState where
  | UNINITIALIZED
  | INITIALIZATION
  | DISCOVERY
  | VALIDATION
  | GENERATION
  | PRIORITY_REGISTRATION
  | REGISTRATION
  | CONNECTING
  | SYNCING
  | ACTIVE
  | RESYNCING
  | ERROR_STATE
deriving DecidableEq

def lifecycle_state_to_string : LifecycleState → String
  | .UNINITIALIZED => "UNINITIALIZED"
  | .INITIALIZATION => "INITIALIZATION"
  | .DISCOVERY => "DISCOVERY"
  | .VALIDATION => "VALIDATION"
  | .GENERATION => "GENERATION"
  | .PRIORITY_REGISTRATION => "PRIORITY_REGISTRATION"
  | .REGISTRATION => "REGISTRATION"
  | .CONNECTING => "CONNECTING"
  | .SYNCING => "SYNCING"
  | .ACTIVE => "ACTIVE"
  | .RESYNCING => "RESYNCING"
  | .ERROR_STATE => "ERROR_STATE"

inductive ItemType where
  | Progression
  | Useful
  | Filler
  | Trap
deriving DecidableEq

def item_type_to_string : ItemType → String
  | .Progression => "progression"
  | .Useful => "useful"
  | .Filler => "filler"
  | .Trap => "trap"

inductive ArgType where
  | String
  | Number
  | Boolean
  | Property
deriving DecidableEq

def arg_type_to_string : ArgType → String
  | .String => "string"
  | .Number => "number"
  | .Boolean => "boolean"
  | .Property => "property"

/-- Primitive JSON value: the shapes an action-argument `value` takes
and that `resolve_arguments` distinguishes (it only ever inspects
whether the value `is_string()`). -/
inductive PVal where
  | jstr (s : String)
  | jnum (n : Int)
  | jbool (b : Bool)
  | jnull
deriving DecidableEq

/-- JSON value carried in an IPC message payload: a primitive, or the
`args` array of an `execute_action` payload (rows of
`{name, type string, value}` as built by `route_item_receipt`). -/
inductive JVal where
  | jstr (s : String)
  | jnum (n : Int)
  | jbool (b : Bool)
  | jnull
  | jargs (rows : List (String × String × PVal))
deriving DecidableEq

structure ActionArg where
  name : String
  type : ArgType
  value : PVal
deriving DecidableEq

structure LocationDef where
  name : String
  amount : Int
  unique : Bool
deriving DecidableEq

structure ItemDef where
  name : String
  type : ItemType
  amount : Int
  action : String
  args : List ActionArg
deriving DecidableEq

structure IncompatibilityRule where
  id : String
  versions : List String
deriving DecidableEq

structure Manifest where
  mod_id : String
  name : String
  version : String
  enabled : Bool
  description : String
  incompatible : List IncompatibilityRule
  locations : List LocationDef
  items : List ItemDef
deriving DecidableEq

/-- LocationOwnership; the C++ field `instance` is named `inst` here
because `instance` is a Lean keyword. -/
structure LocationOwnership where
  mod_id : String
  location_name : String
  location_id : Int
  inst : Int
deriving DecidableEq

structure ItemOwnership where
  mod_id : String
  item_name : String
  item_id : Int
  type : ItemType
  action : String
  args : List ActionArg
  max_count : Int
deriving DecidableEq

structure Conflict where
  capability_name : String
  mod_id_1 : String
  mod_id_2 : String
  description : String
deriving DecidableEq

structure ValidationResult where
  valid : Bool
  conflicts : List Conflict
  warnings : List String
deriving DecidableEq

/-- IPC message; the payload is an association list of JSON values
(`nlohmann::json` object). -/
structure IPCMsg where
  type : String
  source : String
  target : String
  payload : List (String × JVal)
deriving DecidableEq

structure PendingAction where
  mod_id : String
  item_id : Int
  item_name : String
  action : String
  resolved_args : List ActionArg
deriving DecidableEq

/-- SessionState, restricted to the fields the verified operations
touch (ap_types.h `SessionState`). -/
structure SessionState where
  checksum : String
  slot_name : String
  game_name : String
  received_item_index : Int
  checked_locations : List Int
  item_progression_counts : List (Int × Int)
deriving DecidableEq

def empty_session : SessionState :=
  { checksum := "", slot_name := "", game_name := "", received_item_index := 0,
    checked_locations := [], item_progression_counts := [] }

/-! ### SHA-1 (anonymous namespace of ap_capabilities.cpp)

`uint32_t` values are Nats kept below `2^32` by explicit reduction;
the byte buffer is a list of Nats below 256. -/

def rotl32 (v : Nat) (n : Nat) : Nat :=
  ((v <<< n) % 4294967296) ||| (v >>> (32 - n))

structure Sha1State where
  h0 : Nat
  h1 : Nat
  h2 : Nat
  h3 : Nat
  h4 : Nat
  buf : List Nat
  bits : Nat
deriving DecidableEq

def sha1_init : Sha1State :=
  { h0 := 0x67452301, h1 := 0xEFCDAB89, h2 := 0x98BADCFE, h3 := 0x10325476,
    h4 := 0xC3D2E1F0, buf := [], bits := 0 }

/-- Break a 64-byte block into 16 big-endian 32-bit words. -/
def block_words (b : List Nat) : List Nat :=
  (List.range 16).map (fun i =>
    ((b.getD (i * 4) 0) <<< 24) ||| ((b.getD (i * 4 + 1) 0) <<< 16) |||
    ((b.getD (i * 4 + 2) 0) <<< 8) ||| (b.getD (i * 4 + 3) 0))

/-- Extend 16 words to 80 words (`w[i] = rotl1 (w[i-3]^w[i-8]^w[i-14]^w[i-16])`). -/
def extend_words (w : List Nat) : List Nat :=
  (List.range 64).foldl (fun w _ =>
    w ++ [rotl32 ((w.getD (w.length - 3) 0) ^^^ (w.getD (w.length - 8) 0) ^^^
                  (w.getD (w.length - 14) 0) ^^^ (w.getD (w.length - 16) 0)) 1]) w

def sha1_f (i b c d : Nat) : Nat :=
  if i < 20 then (b &&& c) ||| ((0xFFFFFFFF ^^^ b) &&& d)
  else if i < 40 then b ^^^ c ^^^ d
  else if i < 60 then (b &&& c) ||| (b &&& d) ||| (c &&& d)
  else b ^^^ c ^^^ d

def sha1_k (i : Nat) : Nat :=
  if i < 20 then 0x5A827999
  else if i < 40 then 0x6ED9EBA1
  else if i < 60 then 0x8F1BBCDC
  else 0xCA62C1D6

def process_block (st : Sha1State) (block : List Nat) : Sha1State :=
  let w := extend_words (block_words block)
  let r := (List.range 80).foldl
    (fun (t : Nat × Nat × Nat × Nat × Nat) i =>
      let a := t.1
      let b := t.2.1
      let c := t.2.2.1
      let d := t.2.2.2.1
      let e := t.2.2.2.2
      let temp := (rotl32 a 5 + sha1_f i b c d + e + sha1_k i + w.getD i 0) % 4294967296
      (temp, a, rotl32 b 30, c, d))
    (st.h0, st.h1, st.h2, st.h3, st.h4)
  { st with
    h0 := (st.h0 + r.1) % 4294967296,
    h1 := (st.h1 + r.2.1) % 4294967296,
    h2 := (st.h2 + r.2.2.1) % 4294967296,
    h3 := (st.h3 + r.2.2.2.1) % 4294967296,
    h4 := (st.h4 + r.2.2.2.2) % 4294967296 }

/-- Append one byte to the buffer, processing a block when it fills
(`SHA1::update` loop body). -/
def push_byte (st : Sha1State) (b : Nat) : Sha1State :=
  let buf := st.buf ++ [b]
  if buf.length = 64 then
    let st1 := process_block st buf
    { st1 with buf := [] }
  else
    { st with buf := buf }

def push_bytes (st : Sha1State) (data : List Nat) : Sha1State :=
  data.foldl push_byte st

/-- `SHA1::update(data, length)`: feed bytes, then advance the bit count. -/
def sha1_update (st : Sha1State) (data : List Nat) : Sha1State :=
  { push_bytes st data with bits := st.bits + data.length * 8 }

def hexDigit (n : Nat) : Char :=
  if n < 10 then Char.ofNat (48 + n) else Char.ofNat (87 + n)

def hex8 (n : Nat) : String :=
  String.mk ((List.range 8).map (fun i => hexDigit ((n >>> ((7 - i) * 4)) % 16)))

/-- Big-endian 8-byte encoding of the bit count. -/
def be64 (n : Nat) : List Nat :=
  (List.range 8).map (fun i => (n >>> ((7 - i) * 8)) % 256)

/-- `SHA1::final_hex()`: pad with 0x80 and zeros to 56 mod 64, append the
bit count big-endian, process, and print the five words as lowercase hex. -/
def sha1_final_hex (st : Sha1State) : String :=
  let zeros := (56 + 64 - (st.buf.length + 1) % 64) % 64
  let st1 := push_bytes st ([0x80] ++ List.replicate zeros 0 ++ be64 st.bits)
  hex8 st1.h0 ++ hex8 st1.h1 ++ hex8 st1.h2 ++ hex8 st1.h3 ++ hex8 st1.h4

/-- SHA-1 digest (lowercase hex) of a byte list, via a single update. -/
def sha1_hex (data : List Nat) : String :=
  sha1_final_hex (sha1_update sha1_init data)

/-! ### Capabilities (ap_capabilities.cpp, `APCapabilities::Impl`) -/

/-- `std::map<std::string, Manifest>` modelled as an association list
sorted strictly by key; `operator[]` assignment inserts or replaces. -/
def map_insert (k : String) (v : Manifest) :
    List (String × Manifest) → List (String × Manifest)
  | [] => [(k, v)]
  | (k', v') :: rest =>
    if str_lt k k' then (k, v) :: (k', v') :: rest
    else if k = k' then (k, v) :: rest
    else (k', v') :: map_insert k v rest

structure CapState where
  manifests : List (String × Manifest)
  locations : List LocationOwnership
  items : List ItemOwnership
  base_id : Int
deriving DecidableEq

def empty_capabilities : CapState :=
  { manifests := [], locations := [], items := [], base_id := 0 }

/-- Instance numbers `1..amount` of one declared location
(`for (int i = 1; i <= loc.amount; ++i)`). -/
def inst_range (amount : Int) : List Int :=
  (List.range amount.toNat).map (fun k => (k : Int) + 1)

/-- LocationOwnership rows contributed by one manifest, in declaration
order with instances ascending (`add_manifest` location loop). -/
def locs_of (m : Manifest) : List LocationOwnership :=
  m.locations.flatMap (fun loc =>
    (inst_range loc.amount).map (fun i =>
      { mod_id := m.mod_id, location_name := loc.name, location_id := 0,
        inst := i }))

/-- ItemOwnership rows contributed by one manifest, in declaration order
(`add_manifest` item loop; `amount < 0` collapses to `-1`). -/
def items_of (m : Manifest) : List ItemOwnership :=
  m.items.map (fun item =>
    { mod_id := m.mod_id, item_name := item.name, item_id := 0,
      type := item.type, action := item.action, args := item.args,
      max_count := if item.amount < (0 : Int) then (-1 : Int) else item.amount })

def add_manifest (st : CapState) (m : Manifest) : CapState :=
  { st with
    manifests := map_insert m.mod_id m st.manifests,
    locations := st.locations ++ locs_of m,
    items := st.items ++ items_of m }

/-- Feed a sequence of manifests to the capabilities, in the order the
registry delivered them (`for (const auto& manifest :
mod_registry_->get_enabled_manifests()) capabilities_->add_manifest(...)`). -/
def add_all (ms : List Manifest) : CapState :=
  ms.foldl add_manifest empty_capabilities

/-- Validation step 1: mod incompatibility rules
(`validate()` first loop). -/
def incompat_conflicts (st : CapState) : List Conflict :=
  st.manifests.flatMap (fun p =>
    p.2.incompatible.flatMap (fun rule =>
      match List.lookup rule.id st.manifests with
      | none => []
      | some target =>
        let version_match :=
          rule.versions.isEmpty ||
          rule.versions.any (fun ver => ver = target.version || ver = "*")
        if version_match then
          [{ capability_name := "mod_incompatibility", mod_id_1 := p.1,
             mod_id_2 := rule.id,
             description := p.1 ++ " is incompatible with " ++ rule.id }]
        else []))

/-- Validation step 2: duplicate `(location_name, instance)` across mods
(`validate()` second loop, folding the `location_owners` map). -/
def location_conflicts_aux :
    List LocationOwnership → List (String × String) → List Conflict
  | [], _ => []
  | loc :: rest, owners =>
    let key := loc.location_name ++ "#" ++ toString loc.inst
    match List.lookup key owners with
    | some owner =>
      if owner ≠ loc.mod_id then
        { capability_name := "location_conflict", mod_id_1 := owner,
          mod_id_2 := loc.mod_id,
          description := "Duplicate location: " ++ loc.location_name } ::
        location_conflicts_aux rest owners
      else
        location_conflicts_aux rest ((key, loc.mod_id) :: owners)
    | none => location_conflicts_aux rest ((key, loc.mod_id) :: owners)

/-- Validation step 3: duplicate item names across mods
(`validate()` third loop, folding the `item_owners` map). -/
def item_conflicts_aux :
    List ItemOwnership → List (String × String) → List Conflict
  | [], _ => []
  | item :: rest, owners =>
    match List.lookup item.item_name owners with
    | some owner =>
      if owner ≠ item.mod_id then
        { capability_name := "item_conflict", mod_id_1 := owner,
          mod_id_2 := item.mod_id,
          description := "Duplicate item: " ++ item.item_name } ::
        item_conflicts_aux rest owners
      else
        item_conflicts_aux rest ((item.item_name, item.mod_id) :: owners)
    | none => item_conflicts_aux rest ((item.item_name, item.mod_id) :: owners)

/-- `APCapabilities::Impl::validate()`: collect conflicts from the three
passes; `valid` starts `true` and is cleared whenever a conflict is
recorded. -/
def validate (st : CapState) : ValidationResult :=
  let conflicts := incompat_conflicts st ++
    location_conflicts_aux st.locations [] ++ item_conflicts_aux st.items []
  { valid := conflicts.isEmpty, conflicts := conflicts, warnings := [] }

/-- Number the location rows consecutively (`loc.location_id = current_id++`). -/
def number_locations (start : Int) : List LocationOwnership → List LocationOwnership
  | [] => []
  | loc :: rest => { loc with location_id := start } :: number_locations (start + 1) rest

/-- Number the item rows consecutively (`item.item_id = current_id++`). -/
def number_items (start : Int) : List ItemOwnership → List ItemOwnership
  | [] => []
  | item :: rest => { item with item_id := start } :: number_items (start + 1) rest

/-- `APCapabilities::Impl::assign_ids(base_id)`: walk the location rows
first, then the item rows, handing out consecutive IDs from `base_id`. -/
def assign_ids (base_id : Int) (st : CapState) : CapState :=
  { st with
    base_id := base_id,
    locations := number_locations base_id st.locations,
    items := number_items (base_id + st.locations.length) st.items }

/-- `get_location_id`: first row matching `(mod_id, name, instance)`, else 0. -/
def get_location_id (st : CapState) (mod_id location_name : String)
    (inst : Int) : Int :=
  match st.locations.find? (fun loc =>
      loc.mod_id = mod_id && loc.location_name = location_name &&
      loc.inst = inst) with
  | some loc => loc.location_id
  | none => 0

/-- `get_item_id`: first row matching `(mod_id, item_name)`, else 0. -/
def get_item_id (st : CapState) (mod_id item_name : String) : Int :=
  match st.items.find? (fun item =>
      item.mod_id = mod_id && item.item_name = item_name) with
  | some item => item.item_id
  | none => 0

/-- `get_item_by_id`: first row with the given id. -/
def get_item_by_id (st : CapState) (item_id : Int) : Option ItemOwnership :=
  st.items.find? (fun item => item.item_id = item_id)

/-- Bytes hashed for one manifest entry of the checksum loop:
`mod_id`, `version`, then per location `name`/`amount`, then per item
`name`/`type string`/`amount`. -/
def entry_bytes (mod_id : String) (m : Manifest) : List Nat :=
  strBytes mod_id ++ strBytes m.version ++
  m.locations.flatMap (fun loc =>
    strBytes loc.name ++ strBytes (toString loc.amount)) ++
  m.items.flatMap (fun item =>
    strBytes item.name ++ strBytes (item_type_to_string item.type) ++
    strBytes (toString item.amount))

/-- `APCapabilities::Impl::compute_checksum(game_name, slot_name)`:
collect the map keys, sort them, and stream `game`, `slot`, and each
entry through SHA-1 exactly as the source's sequence of `sha.update`
calls does. -/
def compute_checksum (st : CapState) (game_name slot_name : String) : String :=
  sha1_final_hex
    ((sort_le str_le (st.manifests.map Prod.fst)).foldl
      (fun sha mod_id =>
        match List.lookup mod_id st.manifests with
        | some m =>
          m.items.foldl (fun sha item =>
              sha1_update (sha1_update
                (sha1_update sha (strBytes item.name))
                (strBytes (item_type_to_string item.type)))
                (strBytes (toString item.amount)))
            (m.locations.foldl (fun sha loc =>
                sha1_update (sha1_update sha (strBytes loc.name))
                  (strBytes (toString loc.amount)))
              (sha1_update (sha1_update sha (strBytes mod_id))
                (strBytes m.version)))
        | none => sha)
      (sha1_update (sha1_update sha1_init (strBytes game_name))
        (strBytes slot_name)))

/-- Comparator ordering manifests by lexicographic `mod_id`. -/
def manifest_le (m₁ m₂ : Manifest) : Bool := str_le m₁.mod_id m₂.mod_id

/-- Modelled from the spec's words (§4.3 Checksum): SHA-1 over the
concatenation of `game`, `slot`, then for each mod in lexicographic
`mod_id` order its `mod_id`, `version`, each location's `name` and
`amount`, and each item's `name`, type string and `amount`. -/
def checksum_spec (game_name slot_name : String) (ms : List Manifest) : String :=
  sha1_hex (strBytes game_name ++ strBytes slot_name ++
    (sort_le manifest_le ms).flatMap (fun m => entry_bytes m.mod_id m))

/-! ### Mod registry (ap_mod_registry.cpp, `APModRegistry::Impl`)

The registry's `std::unordered_map` iterates in an order the C++
standard leaves unspecified, so the manifests live in a plain
association list whose order stands for whatever order the container
yields. -/

structure RegState where
  manifests : List (String × Manifest)
  registered : List String
deriving DecidableEq

/-- `mark_registered(mod_id)`: fails on unknown mods, otherwise inserts
into the registered set (`std::unordered_set::insert`). -/
def mark_registered (reg : RegState) (mod_id : String) : Option RegState :=
  match List.lookup mod_id reg.manifests with
  | none => none
  | some _ =>
    if mod_id ∈ reg.registered then some reg
    else some { reg with registered := mod_id :: reg.registered }

/-- `get_mod_type`: the priority pattern `^archipelago\.[^.]+\..*` — the
prefix `archipelago.`, then at least one character other than `.`, then a
`.`, then anything. -/
def get_mod_type_priority_tail : List Char → Bool
  | [] => false
  | c :: rest => c ≠ '.' && rest.contains '.'

def is_priority_client (mod_id : String) : Bool :=
  let p := "archipelago.".data
  if mod_id.data.take p.length = p then
    get_mod_type_priority_tail (mod_id.data.drop p.length)
  else false

/-! ### Session state (ap_state_manager.cpp, `APStateManager::Impl`) -/

def is_location_checked (sess : SessionState) (location_id : Int) : Bool :=
  sess.checked_locations.contains location_id

/-- `add_checked_location`: `std::set` insert (idempotent). -/
def add_checked_location (sess : SessionState) (location_id : Int) : SessionState :=
  if sess.checked_locations.contains location_id then sess
  else { sess with checked_locations := location_id :: sess.checked_locations }

def get_item_progression_count (sess : SessionState) (item_id : Int) : Int :=
  match List.lookup item_id sess.item_progression_counts with
  | some count => count
  | none => 0

def increment_received_item_index (sess : SessionState) : SessionState :=
  { sess with received_item_index := sess.received_item_index + 1 }

/-! ### IPC message constructors (ap_message_router.cpp broadcast helpers,
ap_manager.cpp registration response) -/

def lifecycle_msg (state : LifecycleState) (message : String) : IPCMsg :=
  { type := "lifecycle", source := "framework", target := "broadcast",
    payload := [("state", .jstr (lifecycle_state_to_string state)),
                ("message", .jstr message)] }

def error_msg (code message details : String) : IPCMsg :=
  { type := "error", source := "framework", target := "broadcast",
    payload := [("code", .jstr code), ("message", .jstr message),
                ("details", .jstr details)] }

def ap_message_msg (type message : String) : IPCMsg :=
  { type := "ap_message", source := "framework", target := "broadcast",
    payload := [("type", .jstr type), ("message", .jstr message)] }

def registration_response (mod_id : String) (success : Bool) : IPCMsg :=
  { type := "registration_response", source := "framework", target := mod_id,
    payload := [("success", .jbool success), ("mod_id", .jstr mod_id)] }

/-! ### Message router (ap_message_router.cpp, `APMessageRouter::Impl`)

The router is wired by `APManager::Impl::init` with the capabilities,
the state manager and the outbound callbacks, so those are modelled as
present.  Outbound server calls are recorded as the list of id batches
handed to `ap_location_check_`. -/

/-- Placeholder resolution for one argument value
(`resolve_arguments` loop body): only JSON *string* values are examined. -/
def resolve_value (sess : SessionState) (item : ItemOwnership) : PVal → PVal
  | .jstr v =>
    if v = "<GET_ITEM_ID>" then .jnum item.item_id
    else if v = "<GET_ITEM_NAME>" then .jstr item.item_name
    else if v = "<GET_PROGRESSION_COUNT>" then
      .jnum (get_item_progression_count sess item.item_id)
    else .jstr v
  | w => w

/-- `APMessageRouter::Impl::resolve_arguments(item)`. -/
def resolve_arguments (sess : SessionState) (item : ItemOwnership) :
    List ActionArg :=
  item.args.map (fun arg =>
    { name := arg.name, type := arg.type,
      value := resolve_value sess item arg.value })

def execute_action_msg (item : ItemOwnership) (item_id : Int)
    (item_name sender : String) (resolved : List ActionArg) : IPCMsg :=
  { type := "execute_action", source := "framework", target := item.mod_id,
    payload := [("item_id", .jnum item_id), ("item_name", .jstr item_name),
                ("action", .jstr item.action),
                ("args", .jargs (resolved.map (fun arg =>
                  (arg.name, arg_type_to_string arg.type, arg.value)))),
                ("sender", .jstr sender)] }

/-- `APMessageRouter::Impl::route_item_receipt(item_id, item_name,
sender_name)`: returns the pending action (if any) and the IPC messages
sent. -/
def route_item_receipt (caps : CapState) (sess : SessionState)
    (item_id : Int) (item_name sender_name : String) :
    Option PendingAction × List IPCMsg :=
  match get_item_by_id caps item_id with
  | none => (none, [])
  | some item =>
    if item.action = "" then (none, [])
    else
      let resolved := resolve_arguments sess item
      let pending : PendingAction :=
        { mod_id := item.mod_id, item_id := item_id, item_name := item_name,
          action := item.action, resolved_args := resolved }
      (some pending, [execute_action_msg item item_id item_name sender_name resolved])

/-- Result of `route_location_check`: the returned id, the session state
after it, and the batches forwarded to the server. -/
structure RouteCheckResult where
  result : Int
  session : SessionState
  server_calls : List (List Int)
deriving DecidableEq

/-- `APMessageRouter::Impl::route_location_check(mod_id, location_name,
instance)`. -/
def route_location_check (caps : CapState) (sess : SessionState)
    (mod_id location_name : String) (inst : Int) : RouteCheckResult :=
  let location_id := get_location_id caps mod_id location_name inst
  if location_id = 0 then
    { result := 0, session := sess, server_calls := [] }
  else if is_location_checked sess location_id then
    { result := 0, session := sess, server_calls := [] }
  else
    { result := location_id,
      session := add_checked_location sess location_id,
      server_calls := [[location_id]] }

/-! ### Lifecycle coordinator (ap_manager.cpp, `APManager::Impl`) -/

structure RegisterResult where
  accepted : Bool
  registry : RegState
  sent : List IPCMsg
deriving DecidableEq

/-- `APManager::Impl::register_mod(mod_id, version)`: reject outside the
two registration states, reject unknown mods, otherwise mark registered
and send a positive `registration_response`. -/
def register_mod (state : LifecycleState) (reg : RegState)
    (mod_id version : String) : RegisterResult :=
  if state ≠ LifecycleState.PRIORITY_REGISTRATION ∧
     state ≠ LifecycleState.REGISTRATION then
    { accepted := false, registry := reg, sent := [] }
  else
    match mark_registered reg mod_id with
    | none => { accepted := false, registry := reg, sent := [] }
    | some reg' =>
      { accepted := true, registry := reg',
        sent := [registration_response mod_id true] }

def jstr_value (payload : List (String × JVal)) (key dflt : String) : String :=
  match List.lookup key payload with
  | some (.jstr s) => s
  | _ => dflt

/-- The `register` branch of `APManager::Impl::handle_ipc_message`:
extract `mod_id`/`version` from the payload and call `register_mod`
(note: `register_priority_client` is not on this path). -/
def handle_register_message (state : LifecycleState) (reg : RegState)
    (payload : List (String × JVal)) : RegisterResult :=
  register_mod state reg (jstr_value payload "mod_id" "")
    (jstr_value payload "version" "1.0.0")

/-- The VALIDATION step of `APManager::Impl::init` (lines 111-128):
transition to VALIDATION, run `validate()`, and either fall into
ERROR_STATE or continue to GENERATION.  Each transition broadcasts one
`lifecycle` message via `transition_to_unlocked`. -/
def init_validation_step (caps : CapState) : LifecycleState × List IPCMsg :=
  let entering := lifecycle_msg LifecycleState.VALIDATION "Validating capabilities"
  let v := validate caps
  if v.valid then
    (LifecycleState.GENERATION,
     [entering, lifecycle_msg LifecycleState.GENERATION "Generating capabilities"])
  else
    (LifecycleState.ERROR_STATE,
     [entering,
      lifecycle_msg LifecycleState.ERROR_STATE "Capability conflicts detected"])

/-! ### Framework events (ap_polling_thread.cpp callbacks and
`APManager::Impl::handle_framework_event`) -/

inductive FrameworkEvent where
  | itemReceived (item_id : Int) (item_name sender : String)
      (location_id : Int) (is_self : Bool)
  | locationScout (location_id : Int) (location_name : String)
      (item_id : Int) (item_name player_name : String)
  | lifecycleEvent (old_state new_state : LifecycleState) (message : String)
  | errorEvent (code message details : String)
  | apMessageEvent (type message : String)
deriving DecidableEq

/-- The event the polling thread's `disconnected` callback enqueues
(ap_polling_thread.cpp lines 191-199). -/
def disconnected_event : FrameworkEvent :=
  .lifecycleEvent LifecycleState.ACTIVE LifecycleState.ERROR_STATE
    "Disconnected from server"

structure EventResult where
  state : LifecycleState
  session : SessionState
  saved : Bool
  pending : Option PendingAction
  sent : List IPCMsg
deriving DecidableEq

/-- `APManager::Impl::handle_framework_event`: item receipts are routed,
then the received-item index is incremented and the state saved; a
lifecycle event transitions (broadcasting) only when its `new_state` is
ERROR_STATE; error and AP-message events are broadcast. -/
def handle_framework_event (caps : CapState) (sess : SessionState)
    (state : LifecycleState) : FrameworkEvent → EventResult
  | .itemReceived item_id item_name sender _ _ =>
    let routed := route_item_receipt caps sess item_id item_name sender
    { state := state, session := increment_received_item_index sess,
      saved := true, pending := routed.1, sent := routed.2 }
  | .locationScout _ _ _ _ _ =>
    { state := state, session := sess, saved := false, pending := none, sent := [] }
  | .lifecycleEvent _ new_state message =>
    if new_state = LifecycleState.ERROR_STATE then
      { state := LifecycleState.ERROR_STATE, session := sess, saved := false,
        pending := none, sent := [lifecycle_msg LifecycleState.ERROR_STATE message] }
    else
      { state := state, session := sess, saved := false, pending := none, sent := [] }
  | .errorEvent code message details =>
    { state := state, session := sess, saved := false, pending := none,
      sent := [error_msg code message details] }
  | .apMessageEvent type message =>
    { state := state, session := sess, saved := false, pending := none,
      sent := [ap_message_msg type message] }

/-! ### IPC framing (ap_ipc_server.cpp,
`APIPCServer::Impl::process_received_data`)

Messages are modelled at the framed-byte level: a frame is a 4-byte
little-endian length followed by that many payload bytes; equal payload
bytes parse to equal `IPCMessage`s, so framing claims are settled on the
payload bytes. -/

/-- 4-byte little-endian encoding of a length. -/
def u32le (n : Nat) : List Nat :=
  [n % 256, n / 256 % 256, n / 65536 % 256, n / 16777216 % 256]

/-- The length-prefixed wire frame of one message body. -/
def encode_frame (body : List Nat) : List Nat :=
  u32le body.length ++ body

/-- `process_received_data(conn, bytes_received)` on one completed read:
fewer than 4 bytes — return with nothing enqueued; fewer than
`4 + msg_length` bytes — log and return with nothing enqueued; otherwise
parse exactly the one message at the front (any trailing bytes in the
read are never looked at). -/
def process_chunk (chunk : List Nat) : Option (List Nat) :=
  if chunk.length < 4 then none
  else
    let msg_length := chunk.getD 0 0 + 256 * chunk.getD 1 0 +
      65536 * chunk.getD 2 0 + 16777216 * chunk.getD 3 0
    if chunk.length < 4 + msg_length then none
    else some ((chunk.drop 4).take msg_length)

/-- Messages enqueued over a sequence of completed reads: each read is
processed independently (the connection keeps no carry-over buffer). -/
def process_chunks (chunks : List (List Nat)) : List (List Nat) :=
  chunks.filterMap process_chunk

/-! ### Concrete fixtures used by counterexamples and witnesses -/

/-- Manifest `a` of spec scenario S1. -/
def manifestA : Manifest :=
  { mod_id := "a", name := "a", version := "1", enabled := true,
    description := "", incompatible := [],
    locations := [{ name := "L1", amount := 2, unique := false }],
    items := [{ name := "I1", type := .Filler, amount := 1, action := "",
                args := [] }] }

/-- Manifest `b` of spec scenario S1. -/
def manifestB : Manifest :=
  { mod_id := "b", name := "b", version := "1", enabled := true,
    description := "", incompatible := [],
    locations := [{ name := "L2", amount := 1, unique := false }],
    items := [{ name := "I2", type := .Filler, amount := 1, action := "",
                args := [] }] }

/-- Manifest `a` declaring item `Boots` (spec scenario S2). -/
def bootsA : Manifest :=
  { manifestA with
    items := [{ name := "Boots", type := .Filler, amount := 1, action := "",
                args := [] }] }

/-- Manifest `b` declaring item `Boots` (spec scenario S2). -/
def bootsB : Manifest :=
  { manifestB with
    items := [{ name := "Boots", type := .Filler, amount := 1, action := "",
                args := [] }] }

/-- A regular (non-priority) mod. -/
def manifestM : Manifest :=
  { mod_id := "mymod", name := "mymod", version := "1.0.0", enabled := true,
    description := "", incompatible := [], locations := [], items := [] }

/-- Registry knowing only `mymod`, nothing registered yet. -/
def reg0 : RegState :=
  { manifests := [("mymod", manifestM)], registered := [] }

/-- Item fixture of spec scenario S4: a `number`-typed argument whose
value is the `<GET_ITEM_ID>` placeholder string. -/
def potionItem : ItemOwnership :=
  { mod_id := "a", item_name := "Potion", item_id := 5000, type := .Filler,
    action := "Inv.Add",
    args := [{ name := "id", type := .Number, value := .jstr "<GET_ITEM_ID>" }],
    max_count := -1 }

/-- Capabilities after S1 generation with `base = 1000`, delivered in
sorted order. -/
def capsAB : CapState := assign_ids 1000 (add_all [manifestA, manifestB])

/-! ### Order and sorting lemmas -/

theorem lex_lt_irrefl (a : List Char) : lex_lt a a = false := by
  induction a with
  | nil => rfl
  | cons c cs ih => simp [lex_lt, ih]

theorem lex_lt_trans {a b c : List Char} (h₁ : lex_lt a b = true)
    (h₂ : lex_lt b c = true) : lex_lt a c = true := by
  induction a generalizing b c with
  | nil =>
    cases c with
    | nil =>
      cases b with
      | nil => exact absurd h₁ (by simp [lex_lt])
      | cons y ys => exact absurd h₂ (by simp [lex_lt])
    | cons z zs => simp [lex_lt]
  | cons x xs ih =>
    cases b with
    | nil => exact absurd h₁ (by simp [lex_lt])
    | cons y ys =>
      cases c with
      | nil => exact absurd h₂ (by simp [lex_lt])
      | cons z zs =>
        by_cases hxz : x < z
        · simp [lex_lt, hxz]
        · by_cases hxy : x < y
          · by_cases hyz : y < z
            · exact absurd (lt_trans hxy hyz) hxz
            · by_cases hzy : z < y
              · simp [lex_lt, hyz, hzy] at h₂
              · have heq : y = z := le_antisymm (not_lt.mp hzy) (not_lt.mp hyz)
                subst heq
                exact absurd hxy hxz
          · by_cases hyx : y < x
            · simp [lex_lt, hxy, hyx] at h₁
            · have heq : x = y := le_antisymm (not_lt.mp hyx) (not_lt.mp hxy)
              subst heq
              by_cases hzx : z < x
              · simp [lex_lt, hxz, hzx] at h₂
              · have heq2 : x = z := le_antisymm (not_lt.mp hzx) (not_lt.mp hxz)
                subst heq2
                simp only [lex_lt, if_neg (lt_irrefl x)] at h₁ h₂ ⊢
                exact ih h₁ h₂

theorem lex_lt_connex {a b : List Char} (h₁ : lex_lt a b = false)
    (h₂ : lex_lt b a = false) : a = b := by
  induction a generalizing b with
  | nil =>
    cases b with
    | nil => rfl
    | cons y ys => exact absurd h₁ (by simp [lex_lt])
  | cons x xs ih =>
    cases b with
    | nil => exact absurd h₂ (by simp [lex_lt])
    | cons y ys =>
      by_cases hxy : x < y
      · simp [lex_lt, hxy] at h₁
      · by_cases hyx : y < x
        · simp [lex_lt, hyx] at h₂
        · have heq : x = y := le_antisymm (not_lt.mp hyx) (not_lt.mp hxy)
          subst heq
          simp only [lex_lt, if_neg (lt_irrefl x)] at h₁ h₂
          rw [ih h₁ h₂]

theorem lex_lt_asymm {a b : List Char} (h : lex_lt a b = true) :
    lex_lt b a = false := by
  cases hba : lex_lt b a with
  | false => rfl
  | true =>
    have : lex_lt a a = true := lex_lt_trans h hba
    rw [lex_lt_irrefl] at this
    exact absurd this (by simp)

theorem lex_le_trans {a b c : List Char} (h₁ : lex_lt b a = false)
    (h₂ : lex_lt c b = false) : lex_lt c a = false := by
  cases hca : lex_lt c a with
  | false => rfl
  | true =>
    cases hbc : lex_lt b c with
    | true =>
      have : lex_lt b a = true := lex_lt_trans hbc hca
      rw [h₁] at this
      exact absurd this (by simp)
    | false =>
      have heq : b = c := lex_lt_connex hbc h₂
      subst heq
      rw [h₁] at hca
      exact absurd hca (by simp)

theorem str_lt_asymm {a b : String} (h : str_lt a b = true) :
    str_lt b a = false := lex_lt_asymm h

theorem str_lt_irrefl (a : String) : str_lt a a = false := lex_lt_irrefl a.data

theorem str_lt_ne {a b : String} (h : str_lt a b = true) : a ≠ b := by
  intro hab
  subst hab
  rw [str_lt_irrefl] at h
  exact absurd h (by simp)

theorem str_lt_trans {a b c : String} (h₁ : str_lt a b = true)
    (h₂ : str_lt b c = true) : str_lt a c = true := lex_lt_trans h₁ h₂

theorem str_le_total (a b : String) : str_le a b = true ∨ str_le b a = true := by
  unfold str_le
  cases h : str_lt b a with
  | false => left; rfl
  | true =>
    right
    have : str_lt a b = false := str_lt_asymm h
    rw [this]
    rfl

theorem str_le_trans {a b c : String} (h₁ : str_le a b = true)
    (h₂ : str_le b c = true) : str_le a c = true := by
  unfold str_le at h₁ h₂ ⊢
  simp only [Bool.not_eq_true'] at h₁ h₂ ⊢
  exact lex_le_trans h₁ h₂

theorem str_lt_of_not_le {a b : String} (h : str_le a b = false) :
    str_lt b a = true := by
  unfold str_le at h
  simpa using h

theorem str_connex {a b : String} (h₁ : str_lt a b = false)
    (h₂ : str_lt b a = false) : a = b :=
  String.ext (lex_lt_connex h₁ h₂)

theorem insert_le_perm {α : Type} (le : α → α → Bool) (a : α) (l : List α) :
    (insert_le le a l).Perm (a :: l) := by
  induction l with
  | nil => simp [insert_le]
  | cons b bs ih =>
    by_cases h : le a b = true
    · simp [insert_le, h]
    · simp only [insert_le, if_neg h]
      exact ((ih.cons b).trans (List.Perm.swap a b bs))

theorem sort_le_perm {α : Type} (le : α → α → Bool) (l : List α) :
    (sort_le le l).Perm l := by
  induction l with
  | nil => simp [sort_le]
  | cons a as ih =>
    exact (insert_le_perm le a (sort_le le as)).trans (ih.cons a)

theorem mem_insert_le {α : Type} {le : α → α → Bool} {a x : α} {l : List α}
    (h : x ∈ insert_le le a l) : x = a ∨ x ∈ l := by
  have := (insert_le_perm le a l).mem_iff.mp h
  simpa using this

theorem insert_le_pairwise {α : Type} {le : α → α → Bool}
    (htot : ∀ a b, le a b = true ∨ le b a = true)
    (htrans : ∀ a b c, le a b = true → le b c = true → le a c = true)
    {l : List α} (a : α) (hl : l.Pairwise (fun x y => le x y = true)) :
    (insert_le le a l).Pairwise (fun x y => le x y = true) := by
  induction l with
  | nil => simp [insert_le]
  | cons b bs ih =>
    rcases List.pairwise_cons.mp hl with ⟨hb, hbs⟩
    by_cases h : le a b = true
    · simp only [insert_le, if_pos h]
      refine List.pairwise_cons.mpr ⟨?_, hl⟩
      intro y hy
      rcases List.mem_cons.mp hy with hy | hy
      · subst hy; exact h
      · exact htrans a b y h (hb y hy)
    · simp only [insert_le, if_neg h]
      refine List.pairwise_cons.mpr ⟨?_, ih hbs⟩
      intro y hy
      rcases mem_insert_le hy with hy | hy
      · rw [hy]
        rcases htot a b with hab | hba
        · exact absurd hab h
        · exact hba
      · exact hb y hy

theorem sort_le_pairwise {α : Type} {le : α → α → Bool}
    (htot : ∀ a b, le a b = true ∨ le b a = true)
    (htrans : ∀ a b c, le a b = true → le b c = true → le a c = true)
    (l : List α) :
    (sort_le le l).Pairwise (fun x y => le x y = true) := by
  induction l with
  | nil => simp [sort_le]
  | cons x xs ih =>
    simp only [sort_le]
    exact insert_le_pairwise htot htrans x ih

theorem pairwise_perm_eq {α : Type} {r : α → α → Prop}
    (hanti : ∀ a b, r a b → r b a → a = b) {l₁ l₂ : List α}
    (hp : l₁.Perm l₂) (h₁ : l₁.Pairwise r) (h₂ : l₂.Pairwise r) : l₁ = l₂ := by
  haveI : IsAntisymm α r := ⟨hanti⟩
  exact List.eq_of_perm_of_sorted hp h₁ h₂

/-! ### Shared structural lemmas about `add_all` -/

theorem foldl_add_manifest_locations (ms : List Manifest) (st : CapState) :
    (ms.foldl add_manifest st).locations = st.locations ++ ms.flatMap locs_of := by
  induction ms generalizing st with
  | nil => simp
  | cons m rest ih =>
    simp [List.foldl_cons, ih, add_manifest, List.append_assoc]

theorem foldl_add_manifest_items (ms : List Manifest) (st : CapState) :
    (ms.foldl add_manifest st).items = st.items ++ ms.flatMap items_of := by
  induction ms generalizing st with
  | nil => simp
  | cons m rest ih =>
    simp [List.foldl_cons, ih, add_manifest, List.append_assoc]

theorem add_all_locations (ms : List Manifest) :
    (add_all ms).locations = ms.flatMap locs_of := by
  simpa [empty_capabilities] using foldl_add_manifest_locations ms empty_capabilities

theorem add_all_items (ms : List Manifest) :
    (add_all ms).items = ms.flatMap items_of := by
  simpa [empty_capabilities] using foldl_add_manifest_items ms empty_capabilities

/-! ### Claim C1 — ID assignment order -/

/-- Claim C1, counterexample.  The registry hands manifests to the
capabilities in the iteration order of its `std::unordered_map`, which
the C++ standard leaves unspecified; `assign_ids` numbers the rows in
exactly that delivery order.  Delivering the S1 manifests as `[b, a]`
(a legal iteration order of the unordered container) produces a
sequence different from the one the claim requires, and a different
sequence than delivery order `[a, b]` — so neither the
`(mod_id asc, …)` ordering nor multiset determinism holds. -/
theorem C1_counterexample :
    (assign_ids 1000 (add_all [manifestB, manifestA])).locations =
      [{ mod_id := "b", location_name := "L2", location_id := 1000, inst := 1 },
       { mod_id := "a", location_name := "L1", location_id := 1001, inst := 1 },
       { mod_id := "a", location_name := "L1", location_id := 1002, inst := 2 }]
  ∧ (assign_ids 1000 (add_all [manifestB, manifestA])).locations ≠
      [{ mod_id := "a", location_name := "L1", location_id := 1000, inst := 1 },
       { mod_id := "a", location_name := "L1", location_id := 1001, inst := 2 },
       { mod_id := "b", location_name := "L2", location_id := 1002, inst := 1 }]
  ∧ (assign_ids 1000 (add_all [manifestB, manifestA])).locations ≠
      (assign_ids 1000 (add_all [manifestA, manifestB])).locations := by
  decide

/-- Claim C1, amended.  `assign_ids(base)` hands out consecutive IDs
starting at `base`, to all LocationOwnership rows first and then to all
ItemOwnership rows, where the rows are ordered by (delivery position of
the manifest, declaration order within the manifest, instance
ascending) — the delivery order being whatever order the registry's
unordered container yielded, not necessarily `mod_id` ascending.  Two
runs over the same delivery *sequence* of manifests give identical
results (the operation is a pure function of the sequence), but not
necessarily over the same multiset. -/
theorem C1_assign_ids_delivery_order (ms : List Manifest) (base : Int) :
    (assign_ids base (add_all ms)).locations =
      number_locations base (ms.flatMap locs_of)
  ∧ (assign_ids base (add_all ms)).items =
      number_items (base + ((ms.flatMap locs_of).length : Int))
        (ms.flatMap items_of) := by
  constructor
  · simp [assign_ids, add_all_locations]
  · simp [assign_ids, add_all_locations, add_all_items]

/-! ### Claim C2 — IPC framing -/

theorem u32_roundtrip (n : Nat) (h : n < 4294967296) :
    n % 256 + 256 * (n / 256 % 256) + 65536 * (n / 65536 % 256) +
      16777216 * (n / 16777216 % 256) = n := by
  omega

theorem process_chunk_frame (body rest : List Nat)
    (h : body.length < 4294967296) :
    process_chunk (encode_frame body ++ rest) = some body := by
  unfold process_chunk encode_frame u32le
  simp only [List.cons_append, List.nil_append, List.length_cons,
    List.length_append, List.getD_cons_zero, List.getD_cons_succ]
  rw [if_neg (by omega)]
  rw [u32_roundtrip body.length h]
  rw [if_neg (by omega)]
  simp [List.take_left]

theorem process_chunk_partial (body pre post : List Nat)
    (h : body.length < 4294967296)
    (he : encode_frame body = pre ++ post) (hpost : post ≠ []) :
    process_chunk pre = none := by
  match pre with
  | [] => rfl
  | [p0] => rfl
  | [p0, p1] => rfl
  | [p0, p1, p2] => rfl
  | p0 :: p1 :: p2 :: p3 :: pre' =>
    unfold encode_frame u32le at he
    simp only [List.cons_append, List.nil_append, List.cons.injEq] at he
    obtain ⟨h0, h1, h2, h3, hbody⟩ := he
    have hlen : body.length = pre'.length + post.length := by
      rw [hbody]; simp
    have hpostlen : 0 < post.length := List.length_pos.mpr hpost
    unfold process_chunk
    simp only [List.length_cons, List.getD_cons_zero, List.getD_cons_succ]
    rw [if_neg (by omega)]
    rw [← h0, ← h1, ← h2, ← h3, u32_roundtrip body.length h]
    rw [if_pos (by omega)]

theorem process_chunks_one_per_read (msgs : List (List Nat))
    (h : ∀ b ∈ msgs, b.length < 4294967296) :
    process_chunks (msgs.map encode_frame) = msgs := by
  induction msgs with
  | nil => rfl
  | cons b rest ih =>
    have hb : b.length < 4294967296 := h b (by simp)
    have hframe : process_chunk (encode_frame b) = some b := by
      have := process_chunk_frame b [] hb
      simpa using this
    simp only [process_chunks, List.map_cons, List.filterMap_cons, hframe]
    exact congrArg (b :: ·) (ih (fun x hx => h x (by simp [hx])))

/-- Claim C2, counterexample.  `process_received_data` keeps no
reassembly buffer: a valid frame (the two bytes `7B 7D`, i.e. the JSON
text of an empty object, which parses to a valid IPCMessage) delivered
split across two reads is dropped entirely — the claim requires it to be
enqueued exactly once for *every* chunking.  A read containing two
frames enqueues only the first, losing the second. -/
theorem C2_counterexample :
    process_chunk (encode_frame [123, 125]) = some [123, 125]
  ∧ encode_frame [123, 125] = [2, 0, 0] ++ [0, 123, 125]
  ∧ process_chunks [[2, 0, 0], [0, 123, 125]] = []
  ∧ process_chunks [encode_frame [123, 125] ++ encode_frame [97]] =
      [[123, 125]] := by
  decide

/-- Claim C2, amended.  Per completed read, `process_received_data`
parses at most the one frame at the front: a read that starts with a
complete frame enqueues exactly that frame's body (any trailing bytes,
including further complete messages, are discarded); a read holding only
a proper front part of a frame — partial header or partial body —
enqueues nothing (no phantom message, though the connection is kept, not
dropped); and when every message arrives in a read of its own, the
enqueued sequence equals the sent sequence, in order. -/
theorem C2_framing_per_chunk :
    (∀ body rest : List Nat, body.length < 4294967296 →
        process_chunk (encode_frame body ++ rest) = some body)
  ∧ (∀ body pre post : List Nat, body.length < 4294967296 →
        encode_frame body = pre ++ post → post ≠ [] →
        process_chunk pre = none)
  ∧ (∀ msgs : List (List Nat), (∀ b ∈ msgs, b.length < 4294967296) →
        process_chunks (msgs.map encode_frame) = msgs) :=
  ⟨process_chunk_frame, process_chunk_partial, process_chunks_one_per_read⟩

/-- Claim C2 witness: the amended framing theorem applied at concrete
inputs. -/
theorem C2_framing_per_chunk_witness :
    process_chunk (encode_frame [97] ++ [5, 5]) = some [97]
  ∧ process_chunk [1, 0, 0] = none
  ∧ process_chunks ([[97], [98]].map encode_frame) = [[97], [98]] :=
  ⟨C2_framing_per_chunk.1 [97] [5, 5] (by decide),
   C2_framing_per_chunk.2.1 [97] [1, 0, 0] [0, 97] (by decide) (by decide)
     (by decide),
   C2_framing_per_chunk.2.2 [[97], [98]] (by decide)⟩

/-! ### Claim C3 — registration outside the registration states -/

/-- Claim C3, counterexample.  A `register` handled in ACTIVE state is
rejected and leaves the registered set unchanged, but the code sends
*nothing* back — no `registration_response` (negative or otherwise) is
produced, contradicting the claimed negative response. -/
theorem C3_counterexample :
    (register_mod LifecycleState.ACTIVE reg0 "mymod" "1.0.0").sent = []
  ∧ ((register_mod LifecycleState.ACTIVE reg0 "mymod" "1.0.0").sent.any
      (fun msg => msg.type == "registration_response")) = false
  ∧ (register_mod LifecycleState.ACTIVE reg0 "mymod" "1.0.0").registry = reg0 := by
  decide

/-- Claim C3, amended.  A `register` message handled while the lifecycle
state is neither PRIORITY_REGISTRATION nor REGISTRATION is rejected:
the registered set is left unchanged and *no* IPC message at all is sent
to the client (in particular no negative `registration_response`). -/
theorem C3_reject_outside_registration (state : LifecycleState)
    (reg : RegState) (mod_id version : String)
    (h₁ : state ≠ LifecycleState.PRIORITY_REGISTRATION)
    (h₂ : state ≠ LifecycleState.REGISTRATION) :
    register_mod state reg mod_id version =
      { accepted := false, registry := reg, sent := [] } := by
  unfold register_mod
  rw [if_pos ⟨h₁, h₂⟩]

/-- Claim C3 witness: the amended rejection theorem applied in ACTIVE. -/
theorem C3_reject_outside_registration_witness :
    (LifecycleState.ACTIVE ≠ LifecycleState.PRIORITY_REGISTRATION)
  ∧ (LifecycleState.ACTIVE ≠ LifecycleState.REGISTRATION)
  ∧ register_mod LifecycleState.ACTIVE reg0 "mymod" "1.0.0" =
      { accepted := false, registry := reg0, sent := [] } :=
  ⟨by decide, by decide,
   C3_reject_outside_registration LifecycleState.ACTIVE reg0 "mymod" "1.0.0"
     (by decide) (by decide)⟩

/-! ### Claim C4 — regular mods in PRIORITY_REGISTRATION -/

/-- Claim C4, counterexample.  `handle_ipc_message` routes `register`
straight to `register_mod`, which never consults the priority
classification: a regular mod registering during PRIORITY_REGISTRATION
is marked registered immediately and receives a positive response —
neither held nor rejected. -/
theorem C4_counterexample :
    is_priority_client "mymod" = false
  ∧ (handle_register_message LifecycleState.PRIORITY_REGISTRATION reg0
      [("mod_id", .jstr "mymod"), ("version", .jstr "1.0.0")]).accepted = true
  ∧ (handle_register_message LifecycleState.PRIORITY_REGISTRATION reg0
      [("mod_id", .jstr "mymod"), ("version", .jstr "1.0.0")]).registry.registered
      = ["mymod"]
  ∧ (handle_register_message LifecycleState.PRIORITY_REGISTRATION reg0
      [("mod_id", .jstr "mymod"), ("version", .jstr "1.0.0")]).sent =
      [registration_response "mymod" true] := by
  decide

/-- Claim C4, amended.  Any mod known to the registry — priority or
regular — that sends `register` while the state is
PRIORITY_REGISTRATION is accepted on the spot: it is marked registered
and receives `registration_response{success: true}`. -/
theorem C4_regular_registers_in_priority_phase (reg : RegState)
    (mod_id version : String)
    (h : (List.lookup mod_id reg.manifests).isSome = true) :
    (register_mod LifecycleState.PRIORITY_REGISTRATION reg mod_id version).accepted
      = true
  ∧ mod_id ∈ (register_mod LifecycleState.PRIORITY_REGISTRATION reg mod_id
      version).registry.registered
  ∧ (register_mod LifecycleState.PRIORITY_REGISTRATION reg mod_id version).sent
      = [registration_response mod_id true] := by
  unfold register_mod mark_registered
  rw [if_neg (by simp)]
  cases hm : List.lookup mod_id reg.manifests with
  | none => rw [hm] at h; exact absurd h (by simp)
  | some m =>
    by_cases hmem : mod_id ∈ reg.registered
    · simp [hmem]
    · simp [hmem]

/-- Claim C4 witness: the amended acceptance theorem applied to the
regular mod `mymod`. -/
theorem C4_regular_registers_in_priority_phase_witness :
    (List.lookup "mymod" reg0.manifests).isSome = true
  ∧ ((register_mod LifecycleState.PRIORITY_REGISTRATION reg0 "mymod"
        "1.0.0").accepted = true
     ∧ "mymod" ∈ (register_mod LifecycleState.PRIORITY_REGISTRATION reg0
        "mymod" "1.0.0").registry.registered
     ∧ (register_mod LifecycleState.PRIORITY_REGISTRATION reg0 "mymod"
        "1.0.0").sent = [registration_response "mymod" true]) :=
  ⟨by decide,
   C4_regular_registers_in_priority_phase reg0 "mymod" "1.0.0" (by decide)⟩

/-! ### Claim C5 — conflict handling in VALIDATION -/

/-- Claim C5, counterexample.  With two mods both declaring item
`Boots`, `validate()` does report an `item_conflict` and `init` does
fall into ERROR_STATE — but the only broadcasts are `lifecycle`
messages; no `error` message (hence none with code CONFLICT_DETECTED)
is ever sent on this path. -/
theorem C5_counterexample :
    (validate (add_all [bootsA, bootsB])).valid = false
  ∧ (validate (add_all [bootsA, bootsB])).conflicts =
      [{ capability_name := "item_conflict", mod_id_1 := "a", mod_id_2 := "b",
         description := "Duplicate item: Boots" }]
  ∧ (init_validation_step (add_all [bootsA, bootsB])).1 =
      LifecycleState.ERROR_STATE
  ∧ ((init_validation_step (add_all [bootsA, bootsB])).2.any
      (fun msg => msg.type == "error")) = false := by
  decide

/-- Claim C5, amended.  Whenever `validate()` reports a conflict, the
coordinator transitions VALIDATION → ERROR_STATE, but it broadcasts only
`lifecycle` messages (the VALIDATION entry and the ERROR_STATE entry);
no `error` IPC message with code CONFLICT_DETECTED is broadcast. -/
theorem C5_conflict_error_state (caps : CapState)
    (h : (validate caps).valid = false) :
    init_validation_step caps =
      (LifecycleState.ERROR_STATE,
       [lifecycle_msg LifecycleState.VALIDATION "Validating capabilities",
        lifecycle_msg LifecycleState.ERROR_STATE "Capability conflicts detected"])
  ∧ ∀ msg ∈ (init_validation_step caps).2, msg.type ≠ "error" := by
  have hstep : init_validation_step caps =
      (LifecycleState.ERROR_STATE,
       [lifecycle_msg LifecycleState.VALIDATION "Validating capabilities",
        lifecycle_msg LifecycleState.ERROR_STATE
          "Capability conflicts detected"]) := by
    simp only [init_validation_step, h, Bool.false_eq_true, if_false]
  refine ⟨hstep, ?_⟩
  rw [hstep]
  intro msg hmsg
  rcases List.mem_cons.mp hmsg with hm | hm
  · rw [hm]; decide
  · rcases List.mem_cons.mp hm with hm2 | hm2
    · rw [hm2]; decide
    · exact absurd hm2 (by simp)

/-- Claim C5 witness: the amended conflict theorem applied to the
`Boots` duplicate of scenario S2. -/
theorem C5_conflict_error_state_witness :
    (validate (add_all [bootsA, bootsB])).valid = false
  ∧ (init_validation_step (add_all [bootsA, bootsB]) =
      (LifecycleState.ERROR_STATE,
       [lifecycle_msg LifecycleState.VALIDATION "Validating capabilities",
        lifecycle_msg LifecycleState.ERROR_STATE "Capability conflicts detected"])
     ∧ ∀ msg ∈ (init_validation_step (add_all [bootsA, bootsB])).2,
        msg.type ≠ "error") :=
  ⟨by decide, C5_conflict_error_state (add_all [bootsA, bootsB]) (by decide)⟩

/-! ### Claim C6 — disconnect while ACTIVE -/

/-- Claim C6, counterexample.  The polling thread's `disconnected`
callback enqueues a lifecycle event whose `new_state` is ERROR_STATE,
and `handle_framework_event` transitions to it: processing a disconnect
in ACTIVE lands in ERROR_STATE, not in RESYNCING as the claim states. -/
theorem C6_counterexample :
    (handle_framework_event empty_capabilities empty_session
      LifecycleState.ACTIVE disconnected_event).state =
      LifecycleState.ERROR_STATE
  ∧ (handle_framework_event empty_capabilities empty_session
      LifecycleState.ACTIVE disconnected_event).state ≠
      LifecycleState.RESYNCING := by
  decide

/-- Claim C6, amended.  Whenever the system is in ACTIVE and the
disconnected event from the server adapter is processed, the coordinator
transitions to ERROR_STATE (broadcasting the ERROR_STATE lifecycle
message), not to RESYNCING. -/
theorem C6_disconnect_to_error_state (caps : CapState) (sess : SessionState) :
    (handle_framework_event caps sess LifecycleState.ACTIVE
      disconnected_event).state = LifecycleState.ERROR_STATE
  ∧ (handle_framework_event caps sess LifecycleState.ACTIVE
      disconnected_event).sent =
      [lifecycle_msg LifecycleState.ERROR_STATE "Disconnected from server"] := by
  constructor <;> rfl

/-! ### Claim C7 — once-only location checks -/

theorem is_location_checked_add (sess : SessionState) (location_id : Int) :
    is_location_checked (add_checked_location sess location_id) location_id
      = true := by
  unfold is_location_checked add_checked_location
  by_cases h : sess.checked_locations.contains location_id = true
  · rw [if_pos h]
    exact h
  · rw [if_neg h]
    simp [List.contains_cons]

/-- Claim C7, confirmed.  `route_check` returns 0 and makes no outbound
server call when the resolved id is unknown (the lookup's 0 sentinel) or
already in `checked_locations`; otherwise it adds the id to the set,
forwards exactly that id to the server once, and returns it — so a
second call on the same location forwards nothing. -/
theorem C7_route_check_once (caps : CapState) (sess : SessionState)
    (mod_id location_name : String) (inst : Int) :
    (get_location_id caps mod_id location_name inst = 0 →
      route_location_check caps sess mod_id location_name inst =
        { result := 0, session := sess, server_calls := [] })
  ∧ (get_location_id caps mod_id location_name inst ≠ 0 →
      is_location_checked sess (get_location_id caps mod_id location_name inst)
        = true →
      route_location_check caps sess mod_id location_name inst =
        { result := 0, session := sess, server_calls := [] })
  ∧ (get_location_id caps mod_id location_name inst ≠ 0 →
      is_location_checked sess (get_location_id caps mod_id location_name inst)
        = false →
      route_location_check caps sess mod_id location_name inst =
        { result := get_location_id caps mod_id location_name inst,
          session := add_checked_location sess
            (get_location_id caps mod_id location_name inst),
          server_calls := [[get_location_id caps mod_id location_name inst]] }
      ∧ route_location_check caps
          (add_checked_location sess
            (get_location_id caps mod_id location_name inst))
          mod_id location_name inst =
        { result := 0,
          session := add_checked_location sess
            (get_location_id caps mod_id location_name inst),
          server_calls := [] }) := by
  refine ⟨?_, ?_, ?_⟩
  · intro h0
    unfold route_location_check
    rw [if_pos h0]
  · intro h0 hc
    unfold route_location_check
    rw [if_neg h0, if_pos hc]
  · intro h0 hc
    constructor
    · unfold route_location_check
      rw [if_neg h0, if_neg (by rw [hc]; exact Bool.false_ne_true)]
    · unfold route_location_check
      rw [if_neg h0,
        if_pos (is_location_checked_add sess
          (get_location_id caps mod_id location_name inst))]

/-- Claim C7 witness: the once-only theorem applied to location
`("a", "L1", 1)` of the S1 capabilities, which resolves to id 1000. -/
theorem C7_route_check_once_witness :
    (get_location_id capsAB "a" "L1" 1 ≠ 0)
  ∧ (is_location_checked empty_session (get_location_id capsAB "a" "L1" 1)
      = false)
  ∧ (route_location_check capsAB empty_session "a" "L1" 1 =
      { result := get_location_id capsAB "a" "L1" 1,
        session := add_checked_location empty_session
          (get_location_id capsAB "a" "L1" 1),
        server_calls := [[get_location_id capsAB "a" "L1" 1]] }
     ∧ route_location_check capsAB
        (add_checked_location empty_session
          (get_location_id capsAB "a" "L1" 1)) "a" "L1" 1 =
      { result := 0,
        session := add_checked_location empty_session
          (get_location_id capsAB "a" "L1" 1),
        server_calls := [] }) :=
  ⟨by decide, by decide,
   (C7_route_check_once capsAB empty_session "a" "L1" 1).2.2 (by decide)
     (by decide)⟩

/-! ### Claim C8 — action-argument placeholder resolution -/

/-- Claim C8, counterexample.  The placeholder match looks only at the
JSON *value* (`arg.value.is_string()`), never at the declared arg type:
the S4 item's arg is declared `number` yet its `<GET_ITEM_ID>` string
value is substituted by the item id 5000 — the claim requires it to
pass through unchanged because its declared type is not `string`. -/
theorem C8_counterexample :
    potionItem.args.map (fun arg => arg.type) = [ArgType.Number]
  ∧ (resolve_arguments empty_session potionItem).map (fun arg => arg.value) =
      [PVal.jnum 5000]
  ∧ PVal.jnum 5000 ≠ PVal.jstr "<GET_ITEM_ID>" := by
  decide

/-- Claim C8, amended.  Each of the three placeholders is substituted if
and only if it is the exact full *JSON string value* of the arg,
regardless of the arg's declared type; every other value (any non-string
JSON value, and any other string) passes through unchanged, with name
and declared type preserved. -/
theorem C8_resolve_by_value (sess : SessionState) (item : ItemOwnership) :
    resolve_arguments sess item = item.args.map (fun arg =>
      { name := arg.name, type := arg.type,
        value :=
          if arg.value = .jstr "<GET_ITEM_ID>" then .jnum item.item_id
          else if arg.value = .jstr "<GET_ITEM_NAME>" then .jstr item.item_name
          else if arg.value = .jstr "<GET_PROGRESSION_COUNT>" then
            .jnum (get_item_progression_count sess item.item_id)
          else arg.value }) := by
  unfold resolve_arguments
  apply List.map_congr_left
  intro arg _
  cases hv : arg.value with
  | jstr s =>
    by_cases h1 : s = "<GET_ITEM_ID>"
    · simp [resolve_value, h1]
    · by_cases h2 : s = "<GET_ITEM_NAME>"
      · simp [resolve_value, h1, h2]
      · by_cases h3 : s = "<GET_PROGRESSION_COUNT>"
        · simp [resolve_value, h1, h2, h3]
        · simp [resolve_value, h1, h2, h3]
  | jnum n => simp [resolve_value]
  | jbool b => simp [resolve_value]
  | jnull => simp [resolve_value]

/-! ### Claim C10 — item receipt bookkeeping -/

/-- Claim C10, confirmed.  For every ItemReceivedEvent the coordinator
increments `received_item_index` by exactly one and saves the session
state, and this happens even when the item id has no ItemOwnership
record — in which case the router returns no PendingAction and sends
nothing. -/
theorem C10_item_receipt_increments (caps : CapState) (sess : SessionState)
    (state : LifecycleState) (item_id : Int) (item_name sender : String)
    (location_id : Int) (is_self : Bool) :
    (handle_framework_event caps sess state
        (.itemReceived item_id item_name sender location_id
          is_self)).session.received_item_index
      = sess.received_item_index + 1
  ∧ (handle_framework_event caps sess state
        (.itemReceived item_id item_name sender location_id is_self)).saved
      = true
  ∧ (get_item_by_id caps item_id = none →
      (handle_framework_event caps sess state
          (.itemReceived item_id item_name sender location_id is_self)).pending
        = none
      ∧ (handle_framework_event caps sess state
          (.itemReceived item_id item_name sender location_id is_self)).sent
        = []) := by
  refine ⟨rfl, rfl, ?_⟩
  intro h
  simp [handle_framework_event, route_item_receipt, h]

/-- Claim C10 witness: the bookkeeping theorem applied to an item id
(5) unknown to the S1 capabilities. -/
theorem C10_item_receipt_increments_witness :
    get_item_by_id capsAB 5 = none
  ∧ ((handle_framework_event capsAB empty_session LifecycleState.ACTIVE
        (.itemReceived 5 "Mystery" "Bob" 0 false)).pending = none
     ∧ (handle_framework_event capsAB empty_session LifecycleState.ACTIVE
        (.itemReceived 5 "Mystery" "Bob" 0 false)).sent = []) :=
  ⟨by decide,
   (C10_item_receipt_increments capsAB empty_session LifecycleState.ACTIVE 5
     "Mystery" "Bob" 0 false).2.2 (by decide)⟩

/-! ### SHA-1 update algebra (for claim C9) -/

theorem sha1_update_nil (st : Sha1State) : sha1_update st [] = st := by
  simp [sha1_update, push_bytes]

theorem push_byte_bits (st : Sha1State) (n b : Nat) :
    push_byte { st with bits := n } b = { push_byte st b with bits := n } := by
  unfold push_byte
  by_cases h : st.buf.length = 63
  · simp [h, process_block]
  · simp [h]

theorem push_bytes_bits (st : Sha1State) (n : Nat) (data : List Nat) :
    push_bytes { st with bits := n } data
      = { push_bytes st data with bits := n } := by
  induction data generalizing st with
  | nil => rfl
  | cons b rest ih =>
    simp only [push_bytes, List.foldl_cons] at ih ⊢
    rw [push_byte_bits]
    exact ih (push_byte st b)

theorem sha1_update_update (st : Sha1State) (a b : List Nat) :
    sha1_update (sha1_update st a) b = sha1_update st (a ++ b) := by
  unfold sha1_update
  rw [push_bytes_bits]
  simp only [push_bytes, List.foldl_append, List.length_append]
  congr 1
  omega

theorem foldl_sha1_update {α : Type} (f : α → List Nat) (l : List α)
    (st : Sha1State) :
    l.foldl (fun s x => sha1_update s (f x)) st = sha1_update st (l.flatMap f) := by
  induction l generalizing st with
  | nil => simp [sha1_update_nil]
  | cons x rest ih =>
    simp only [List.foldl_cons, List.flatMap_cons]
    rw [ih, sha1_update_update]

theorem foldl_sha1_update_two {α : Type} (f g : α → List Nat) (l : List α)
    (st : Sha1State) :
    l.foldl (fun s x => sha1_update (sha1_update s (f x)) (g x)) st
      = sha1_update st (l.flatMap (fun x => f x ++ g x)) := by
  rw [List.foldl_ext _ (fun s x => sha1_update s (f x ++ g x)) st
    (fun s x _ => sha1_update_update s (f x) (g x))]
  exact foldl_sha1_update _ l st

theorem foldl_sha1_update_three {α : Type} (f g h : α → List Nat) (l : List α)
    (st : Sha1State) :
    l.foldl (fun s x =>
        sha1_update (sha1_update (sha1_update s (f x)) (g x)) (h x)) st
      = sha1_update st (l.flatMap (fun x => f x ++ g x ++ h x)) := by
  rw [List.foldl_ext _ (fun s x => sha1_update s (f x ++ g x ++ h x)) st
    (fun s x _ => by rw [sha1_update_update, sha1_update_update,
      ← List.append_assoc])]
  exact foldl_sha1_update _ l st

/-! ### Sorted association-list lemmas (for claim C9) -/

theorem mem_map_insert {k : String} {v : Manifest}
    {l : List (String × Manifest)} {x : String × Manifest}
    (h : x ∈ map_insert k v l) : x = (k, v) ∨ x ∈ l := by
  induction l with
  | nil => simpa [map_insert] using h
  | cons p rest ih =>
    obtain ⟨k', v'⟩ := p
    by_cases h1 : str_lt k k' = true
    · simp only [map_insert, if_pos h1] at h
      rcases List.mem_cons.mp h with h2 | h2
      · exact Or.inl h2
      · exact Or.inr h2
    · by_cases h2 : k = k'
      · simp only [map_insert, if_neg h1, if_pos h2] at h
        rcases List.mem_cons.mp h with h3 | h3
        · exact Or.inl h3
        · exact Or.inr (List.mem_cons_of_mem _ h3)
      · simp only [map_insert, if_neg h1, if_neg h2] at h
        rcases List.mem_cons.mp h with h3 | h3
        · right; rw [h3]; exact List.mem_cons_self _ _
        · rcases ih h3 with h4 | h4
          · exact Or.inl h4
          · exact Or.inr (List.mem_cons_of_mem _ h4)

theorem map_insert_pairwise {k : String} {v : Manifest}
    {l : List (String × Manifest)}
    (hl : l.Pairwise (fun p q => str_lt p.1 q.1 = true)) :
    (map_insert k v l).Pairwise (fun p q => str_lt p.1 q.1 = true) := by
  induction l with
  | nil => simp [map_insert]
  | cons p rest ih =>
    obtain ⟨k', v'⟩ := p
    rcases List.pairwise_cons.mp hl with ⟨hhead, htail⟩
    by_cases h1 : str_lt k k' = true
    · simp only [map_insert, if_pos h1]
      refine List.pairwise_cons.mpr ⟨?_, hl⟩
      intro q hq
      rcases List.mem_cons.mp hq with h2 | h2
      · rw [h2]; exact h1
      · exact str_lt_trans h1 (hhead q h2)
    · by_cases h2 : k = k'
      · simp only [map_insert, if_neg h1, if_pos h2]
        refine List.pairwise_cons.mpr ⟨?_, htail⟩
        intro q hq
        rw [h2]
        exact hhead q hq
      · simp only [map_insert, if_neg h1, if_neg h2]
        refine List.pairwise_cons.mpr ⟨?_, ih htail⟩
        intro q hq
        rcases mem_map_insert hq with h3 | h3
        · rw [h3]
          cases h4 : str_lt k' k with
          | true => rfl
          | false =>
            have h5 : str_lt k k' = false := by
              cases h6 : str_lt k k' with
              | true => exact absurd h6 h1
              | false => rfl
            exact absurd (str_connex h5 h4) h2
        · exact hhead q h3

theorem map_insert_perm {k : String} {v : Manifest}
    {l : List (String × Manifest)} (h : k ∉ l.map Prod.fst) :
    (map_insert k v l).Perm ((k, v) :: l) := by
  induction l with
  | nil => simp [map_insert]
  | cons p rest ih =>
    obtain ⟨k', v'⟩ := p
    simp only [List.map_cons, List.mem_cons] at h
    push_neg at h
    obtain ⟨hne, hrest⟩ := h
    by_cases h1 : str_lt k k' = true
    · simp only [map_insert, if_pos h1]
      exact List.Perm.refl _
    · simp only [map_insert, if_neg h1, if_neg hne]
      exact ((ih hrest).cons (k', v')).trans (List.Perm.swap (k, v) (k', v') rest)

theorem foldl_add_manifest_manifests_pairwise (ms : List Manifest)
    (st : CapState)
    (h : st.manifests.Pairwise (fun p q => str_lt p.1 q.1 = true)) :
    ((ms.foldl add_manifest st).manifests).Pairwise
      (fun p q => str_lt p.1 q.1 = true) := by
  induction ms generalizing st with
  | nil => exact h
  | cons m rest ih =>
    simp only [List.foldl_cons]
    exact ih (add_manifest st m) (map_insert_pairwise h)

theorem add_all_manifests_pairwise (ms : List Manifest) :
    ((add_all ms).manifests).Pairwise (fun p q => str_lt p.1 q.1 = true) :=
  foldl_add_manifest_manifests_pairwise ms empty_capabilities (by simp [empty_capabilities])

theorem foldl_add_manifest_manifests_perm (ms : List Manifest) (st : CapState)
    (hdisj : ∀ m ∈ ms, m.mod_id ∉ st.manifests.map Prod.fst)
    (hnd : (ms.map Manifest.mod_id).Nodup) :
    ((ms.foldl add_manifest st).manifests).Perm
      ((ms.map (fun m => (m.mod_id, m))) ++ st.manifests) := by
  induction ms generalizing st with
  | nil => simp
  | cons m rest ih =>
    simp only [List.map_cons, List.nodup_cons] at hnd
    obtain ⟨hm_notin, hnd_rest⟩ := hnd
    have hmem : m.mod_id ∉ st.manifests.map Prod.fst := hdisj m (by simp)
    have hins : ((add_manifest st m).manifests).Perm
        ((m.mod_id, m) :: st.manifests) := map_insert_perm hmem
    have hkeys : ((add_manifest st m).manifests.map Prod.fst).Perm
        (m.mod_id :: st.manifests.map Prod.fst) := by
      simpa using hins.map Prod.fst
    have hdisj' : ∀ x ∈ rest, x.mod_id ∉ (add_manifest st m).manifests.map Prod.fst := by
      intro x hx hmemx
      rcases List.mem_cons.mp (hkeys.mem_iff.mp hmemx) with h1 | h1
      · exact hm_notin (h1 ▸ List.mem_map_of_mem Manifest.mod_id hx)
      · exact hdisj x (List.mem_cons_of_mem _ hx) h1
    simp only [List.foldl_cons, List.map_cons, List.cons_append]
    exact (ih (add_manifest st m) hdisj' hnd_rest).trans
      ((hins.append_left _).trans List.perm_middle)

theorem add_all_manifests_perm (ms : List Manifest)
    (hnd : (ms.map Manifest.mod_id).Nodup) :
    ((add_all ms).manifests).Perm (ms.map (fun m => (m.mod_id, m))) := by
  simpa [empty_capabilities] using
    foldl_add_manifest_manifests_perm ms empty_capabilities
      (by simp [empty_capabilities]) hnd

theorem str_lt_of_le_of_ne {a b : String} (hle : str_le a b = true)
    (hne : a ≠ b) : str_lt a b = true := by
  have h1 : str_lt b a = false := by
    unfold str_le at hle
    simpa using hle
  cases h2 : str_lt a b with
  | true => rfl
  | false => exact absurd (str_connex h2 h1) hne

theorem manifest_le_total (a b : Manifest) :
    manifest_le a b = true ∨ manifest_le b a = true := str_le_total _ _

theorem manifest_le_trans (a b c : Manifest) (h1 : manifest_le a b = true)
    (h2 : manifest_le b c = true) : manifest_le a c = true :=
  str_le_trans h1 h2

theorem sort_manifests_strict (ms : List Manifest)
    (hnd : (ms.map Manifest.mod_id).Nodup) :
    (sort_le manifest_le ms).Pairwise
      (fun a b => str_lt a.mod_id b.mod_id = true) := by
  have hperm : (sort_le manifest_le ms).Perm ms := sort_le_perm _ _
  have hnd2 : ((sort_le manifest_le ms).map Manifest.mod_id).Nodup :=
    ((hperm.map Manifest.mod_id).symm).nodup hnd
  have hne : (sort_le manifest_le ms).Pairwise
      (fun a b => a.mod_id ≠ b.mod_id) := List.pairwise_map.mp hnd2
  have hle : (sort_le manifest_le ms).Pairwise
      (fun a b => manifest_le a b = true) :=
    sort_le_pairwise manifest_le_total manifest_le_trans ms
  exact (hle.and hne).imp (fun h => str_lt_of_le_of_ne h.1 h.2)

theorem add_all_manifests_eq_sorted (ms : List Manifest)
    (hnd : (ms.map Manifest.mod_id).Nodup) :
    (add_all ms).manifests
      = (sort_le manifest_le ms).map (fun m => (m.mod_id, m)) := by
  refine pairwise_perm_eq (r := fun p q => str_lt p.1 q.1 = true) ?_ ?_ ?_ ?_
  · intro p q hpq hqp
    rw [str_lt_asymm hpq] at hqp
    exact absurd hqp (by simp)
  · exact (add_all_manifests_perm ms hnd).trans
      (((sort_le_perm manifest_le ms).map (fun m => (m.mod_id, m))).symm)
  · exact add_all_manifests_pairwise ms
  · exact List.pairwise_map.mpr (sort_manifests_strict ms hnd)

theorem sort_le_sorted_eq (l : List String)
    (hl : l.Pairwise (fun a b => str_le a b = true)) :
    sort_le str_le l = l := by
  refine pairwise_perm_eq (r := fun a b => str_le a b = true) ?_
    (sort_le_perm str_le l)
    (sort_le_pairwise str_le_total (fun a b c => str_le_trans) l) hl
  intro a b h1 h2
  have hba : str_lt b a = false := by
    unfold str_le at h1
    simpa using h1
  have hab : str_lt a b = false := by
    unfold str_le at h2
    simpa using h2
  exact str_connex hab hba

theorem flatMap_congr_mem {α β : Type} {l : List α} {f g : α → List β}
    (h : ∀ x ∈ l, f x = g x) : l.flatMap f = l.flatMap g := by
  induction l with
  | nil => rfl
  | cons x rest ih =>
    simp only [List.flatMap_cons]
    rw [h x (by simp), ih (fun y hy => h y (by simp [hy]))]

theorem lookup_flatMap (l : List (String × Manifest))
    (hl : l.Pairwise (fun p q => str_lt p.1 q.1 = true))
    (f : String → Manifest → List Nat) :
    (l.map Prod.fst).flatMap (fun k =>
        match List.lookup k l with
        | some m => f k m
        | none => []) = l.flatMap (fun p => f p.1 p.2) := by
  induction l with
  | nil => rfl
  | cons p rest ih =>
    obtain ⟨k₁, v₁⟩ := p
    rcases List.pairwise_cons.mp hl with ⟨hhead, htail⟩
    simp only [List.map_cons, List.flatMap_cons]
    have hself : List.lookup k₁ ((k₁, v₁) :: rest) = some v₁ := by
      simp [List.lookup_cons]
    rw [hself]
    have htailmap : (rest.map Prod.fst).flatMap (fun k =>
        match List.lookup k ((k₁, v₁) :: rest) with
        | some m => f k m
        | none => []) = (rest.map Prod.fst).flatMap (fun k =>
        match List.lookup k rest with
        | some m => f k m
        | none => []) := by
      apply flatMap_congr_mem
      intro k hk
      rcases List.mem_map.mp hk with ⟨q, hq, hqk⟩
      have hne : k ≠ k₁ := by
        intro hkk
        have := hhead q hq
        rw [hqk, hkk] at this
        rw [str_lt_irrefl] at this
        exact absurd this (by simp)
      rw [List.lookup_cons]
      simp [beq_eq_false_iff_ne.mpr hne]
    rw [htailmap, ih htail]

/-! ### Claim C9 — checksum refinement and order invariance -/

theorem compute_checksum_flat (st : CapState)
    (hst : st.manifests.Pairwise (fun p q => str_lt p.1 q.1 = true))
    (game_name slot_name : String) :
    compute_checksum st game_name slot_name =
      sha1_hex (strBytes game_name ++ strBytes slot_name ++
        st.manifests.flatMap (fun p => entry_bytes p.1 p.2)) := by
  have hkeys_le : (st.manifests.map Prod.fst).Pairwise
      (fun a b => str_le a b = true) := by
    refine (List.pairwise_map.mpr (hst.imp ?_))
    intro p q h
    unfold str_le
    rw [str_lt_asymm h]
    rfl
  have hbody : ∀ (s : Sha1State), ∀ k ∈ st.manifests.map Prod.fst,
      (match List.lookup k st.manifests with
        | some m =>
          m.items.foldl (fun sha item =>
              sha1_update (sha1_update
                (sha1_update sha (strBytes item.name))
                (strBytes (item_type_to_string item.type)))
                (strBytes (toString item.amount)))
            (m.locations.foldl (fun sha loc =>
                sha1_update (sha1_update sha (strBytes loc.name))
                  (strBytes (toString loc.amount)))
              (sha1_update (sha1_update s (strBytes k)) (strBytes m.version)))
        | none => s)
      = sha1_update s (match List.lookup k st.manifests with
          | some m => entry_bytes k m
          | none => []) := by
    intro s k _
    cases hm : List.lookup k st.manifests with
    | none => simp [sha1_update_nil]
    | some m =>
      simp only
      rw [foldl_sha1_update_two (fun loc => strBytes loc.name)
          (fun loc => strBytes (toString loc.amount)) m.locations,
        foldl_sha1_update_three (fun item => strBytes item.name)
          (fun item => strBytes (item_type_to_string item.type))
          (fun item => strBytes (toString item.amount)) m.items,
        sha1_update_update, sha1_update_update, sha1_update_update]
      simp [entry_bytes, List.append_assoc]
  unfold compute_checksum sha1_hex
  rw [sort_le_sorted_eq _ hkeys_le]
  rw [List.foldl_ext _ (fun s k =>
      sha1_update s (match List.lookup k st.manifests with
        | some m => entry_bytes k m
        | none => []))
    _ hbody]
  rw [foldl_sha1_update (fun k =>
      match List.lookup k st.manifests with
      | some m => entry_bytes k m
      | none => []) (st.manifests.map Prod.fst)]
  rw [lookup_flatMap st.manifests hst (fun k m => entry_bytes k m)]
  rw [sha1_update_update, sha1_update_update]
  rw [List.append_assoc]

/-- Claim C9, confirmed.  `compute_checksum(game, slot)` equals SHA-1
over the concatenation of `game`, `slot`, then for each `mod_id` in
lexicographic order the mod's `mod_id`, `version`, each location's name
and amount, and each item's name, type string, and amount (declaration
order); consequently, feeding the same manifests in any other order
yields the same checksum. -/
theorem C9_checksum (ms ms' : List Manifest) (game_name slot_name : String)
    (hnd : (ms.map Manifest.mod_id).Nodup) (hperm : ms'.Perm ms) :
    compute_checksum (add_all ms) game_name slot_name
      = checksum_spec game_name slot_name ms
  ∧ compute_checksum (add_all ms') game_name slot_name
      = compute_checksum (add_all ms) game_name slot_name := by
  have main : ∀ l : List Manifest, (l.map Manifest.mod_id).Nodup →
      compute_checksum (add_all l) game_name slot_name
        = checksum_spec game_name slot_name l := by
    intro l hl
    rw [compute_checksum_flat _ (add_all_manifests_pairwise l) game_name
      slot_name]
    rw [add_all_manifests_eq_sorted l hl]
    rw [List.flatMap_map]
    rfl
  have hnd' : (ms'.map Manifest.mod_id).Nodup :=
    ((hperm.map Manifest.mod_id).symm).nodup hnd
  have hsort : sort_le manifest_le ms' = sort_le manifest_le ms := by
    refine pairwise_perm_eq
      (r := fun a b => str_lt a.mod_id b.mod_id = true) ?_
      ((sort_le_perm manifest_le ms').trans
        (hperm.trans (sort_le_perm manifest_le ms).symm))
      (sort_manifests_strict ms' hnd') (sort_manifests_strict ms hnd)
    intro a b h1 h2
    rw [str_lt_asymm h1] at h2
    exact absurd h2 (by simp)
  refine ⟨main ms hnd, ?_⟩
  rw [main ms hnd, main ms' hnd']
  unfold checksum_spec
  rw [hsort]

/-- Claim C9 witness: the checksum theorem applied to the S1 manifests
delivered in both orders. -/
theorem C9_checksum_witness :
    ([manifestA, manifestB].map Manifest.mod_id).Nodup
  ∧ ([manifestB, manifestA] : List Manifest).Perm [manifestA, manifestB]
  ∧ (compute_checksum (add_all [manifestA, manifestB]) "g" "s"
       = checksum_spec "g" "s" [manifestA, manifestB]
     ∧ compute_checksum (add_all [manifestB, manifestA]) "g" "s"
       = compute_checksum (add_all [manifestA, manifestB]) "g" "s") :=
  ⟨by decide, List.Perm.swap manifestA manifestB [],
   C9_checksum [manifestA, manifestB] [manifestB, manifestA] "g" "s"
     (by decide) (List.Perm.swap manifestA manifestB [])⟩

end APF
